import Mathlib

/-!
Shallow embedding of `training/hand/volumetric_rendering/ray_sampler.py`.

The source module defines two batched camera-ray generators:

* `RaySampler.forward` (OpenCV-style pinhole unprojection), and
* `AvatarGenRaySampler.forward` (OpenGL-style direction construction with an
  all-zero-intrinsics diagnostic fallback).

Tensors are modelled index-wise: a batch of matrices is a function from the
batch index to a matrix, a matrix is a function from row and column indices to
an exact rational (the float arithmetic of the source is modelled by exact
rational/real arithmetic), and reshaping/flattening is modelled by explicit
index arithmetic that mirrors the row-major layout torch uses.  Every
normalization (the only irrational step) is modelled over the reals with
`Real.sqrt`.
-/

abbrev Mat3 := Fin 3 → Fin 3 → ℚ
abbrev Mat4 := Fin 4 → Fin 4 → ℚ
abbrev Vec3Q := Fin 3 → ℚ

/-- Squared euclidean norm of a rational 3-vector. -/
def normSq (v : Vec3Q) : ℚ := v 0 ^ 2 + v 1 ^ 2 + v 2 ^ 2

/-- Euclidean norm of a real 3-vector (`torch.norm` along the last axis). -/
noncomputable def norm3 (v : Fin 3 → ℝ) : ℝ := Real.sqrt (v 0 ^ 2 + v 1 ^ 2 + v 2 ^ 2)

/-! ### RaySampler.forward (lines 33-72 of the source)

`cam2world_matrix : (N, 4, 4)` and `intrinsics : (N, 3, 3)` become functions
from the camera index `n`; `resolution` is `R`; the flat pixel index is `m`.
-/

/-- Line 45: `cam_locs_world = cam2world_matrix[:, :3, 3]`. -/
def camLocsWorld (c2w : ℕ → Mat4) (n : ℕ) : Vec3Q := fun k => c2w n k.castSucc 3

/-- Line 46: `fx = intrinsics[:, 0, 0]`. -/
def fx (intr : ℕ → Mat3) (n : ℕ) : ℚ := intr n 0 0

/-- Line 47: `fy = intrinsics[:, 1, 1]`. -/
def fy (intr : ℕ → Mat3) (n : ℕ) : ℚ := intr n 1 1

/-- Line 48: `cx = intrinsics[:, 0, 2]`. -/
def cx (intr : ℕ → Mat3) (n : ℕ) : ℚ := intr n 0 2

/-- Line 49: `cy = intrinsics[:, 1, 2]`. -/
def cy (intr : ℕ → Mat3) (n : ℕ) : ℚ := intr n 1 2

/-- Line 50: `sk = intrinsics[:, 0, 1]`. -/
def sk (intr : ℕ → Mat3) (n : ℕ) : ℚ := intr n 0 1

/-- Line 52: `torch.stack(torch.meshgrid(arange(R), arange(R), indexing='ij'))
* (1./resolution) + (0.5/resolution)`.  Channel `c = 0` carries the first
(`ij`-style row) index `a`, channel `c = 1` the second index `b`. -/
def uvMesh (R : ℕ) (c : Fin 2) (a b : ℕ) : ℚ :=
  (if c = 0 then (a : ℚ) else (b : ℚ)) * (1 / (R : ℚ)) + 0.5 / (R : ℚ)

/-- Line 53, `uv.flip(0)`: reversing a length-2 axis swaps the two channels. -/
def uvFlip (R : ℕ) (c : Fin 2) (a b : ℕ) : ℚ := uvMesh R c.rev a b

/-- Line 53, `.reshape(2, -1).transpose(1, 0)`: row-major flattening of the
`R × R` grid, so flat index `m` stands for grid cell `(m / R, m % R)`. -/
def uvFlat (R m : ℕ) (c : Fin 2) : ℚ := uvFlip R c (m / R) (m % R)

/-- Line 54, `uv.unsqueeze(0).repeat(N, 1, 1)`: the same grid for every camera. -/
def uvRep (R n m : ℕ) (c : Fin 2) : ℚ := uvFlat R m c

/-- Line 56: `x_cam = uv[:, :, 0].view(N, -1)`. -/
def x_cam (R n m : ℕ) : ℚ := uvRep R n m 0

/-- Line 57: `y_cam = uv[:, :, 1].view(N, -1)`. -/
def y_cam (R n m : ℕ) : ℚ := uvRep R n m 1

/-- Line 58: `z_cam = torch.ones((N, M))`. -/
def z_cam (R n m : ℕ) : ℚ := 1

/-- Line 60: `x_lift = (x_cam - cx + cy*sk/fy - sk*y_cam/fy) / fx * z_cam`. -/
def x_lift (intr : ℕ → Mat3) (R n m : ℕ) : ℚ :=
  (x_cam R n m - cx intr n + cy intr n * sk intr n / fy intr n
      - sk intr n * y_cam R n m / fy intr n) / fx intr n * z_cam R n m

/-- Line 61: `y_lift = (y_cam - cy) / fy * z_cam`. -/
def y_lift (intr : ℕ → Mat3) (R n m : ℕ) : ℚ :=
  (y_cam R n m - cy intr n) / fy intr n * z_cam R n m

/-- Line 63: `cam_rel_points = torch.stack((x_lift, y_lift, z_cam, ones), dim=-1)`. -/
def camRelPoint (intr : ℕ → Mat3) (R n m : ℕ) : Fin 4 → ℚ :=
  ![x_lift intr R n m, y_lift intr R n m, z_cam R n m, 1]

/-- Line 65: `world_rel_points = bmm(cam2world_matrix, cam_rel_points...)[:, :, :3]`. -/
def worldRelPoint (c2w : ℕ → Mat4) (intr : ℕ → Mat3) (R n m : ℕ) : Vec3Q :=
  fun k => ∑ j : Fin 4, c2w n k.castSucc j * camRelPoint intr R n m j

/-- Line 67: `ray_dirs = world_rel_points - cam_locs_world[:, None, :]`. -/
def rayDirPre (c2w : ℕ → Mat4) (intr : ℕ → Mat3) (R n m : ℕ) : Vec3Q :=
  fun k => worldRelPoint c2w intr R n m k - camLocsWorld c2w n k

/-- Line 68: `ray_dirs = torch.nn.functional.normalize(ray_dirs, dim=2)`, which
divides by `max(norm, 1e-12)`. -/
noncomputable def rayDir (c2w : ℕ → Mat4) (intr : ℕ → Mat3) (R n m : ℕ) : Fin 3 → ℝ :=
  fun k => (rayDirPre c2w intr R n m k : ℝ) /
    max (Real.sqrt ((normSq (rayDirPre c2w intr R n m) : ℝ))) 1e-12

/-- Line 70: `ray_origins = cam_locs_world.unsqueeze(1).repeat(1, M, 1)`. -/
def rayOrigin (c2w : ℕ → Mat4) (R n m : ℕ) : Vec3Q := camLocsWorld c2w n

/-! ### AvatarGenRaySampler.forward (lines 75-111 of the source) -/

/-- Lines 18-21: the hard-coded diagnostic intrinsics. -/
def intrinsics_dry_run : Mat3 :=
  ![![31.25, 0, 0.5],
    ![0, 31.25, 0.5],
    ![0, 0, 1]]

/-- Lines 22-25: the hard-coded diagnostic cam2world matrix. -/
def camera2world_dry_run : Mat4 :=
  ![![7.1037e-3, -8.6363e-1, 5.0408e-1, -4.6887],
    ![-8.4197e-1, -2.7712e-1, -4.6292e-1, 3.6448],
    ![5.3948e-1, -4.2113e-1, -7.2911e-1, 5.6236],
    ![0, 0, 0, 1]]

/-- Line 83: `torch.all(intrinsics == 0)` over the batch of `N` matrices. -/
def allZero (N : ℕ) (intr : ℕ → Mat3) : Prop :=
  ∀ n < N, ∀ i j : Fin 3, intr n i j = 0

instance allZeroDecidable (N : ℕ) (intr : ℕ → Mat3) : Decidable (allZero N intr) := by
  unfold allZero; infer_instance

/-- Lines 83-85: the intrinsics actually used (diagnostic substitution). -/
def effIntr (N : ℕ) (intr : ℕ → Mat3) : ℕ → Mat3 :=
  if allZero N intr then fun _ => intrinsics_dry_run else intr

/-- Lines 83-85: the cam2world batch actually used (diagnostic substitution). -/
def effC2w (N : ℕ) (c2w : ℕ → Mat4) (intr : ℕ → Mat3) : ℕ → Mat4 :=
  if allZero N intr then fun _ => camera2world_dry_run else c2w

/-- Line 87: `M = torch.eye(4)`. -/
def eye4 : Mat4 := fun i j => if i = j then 1 else 0

/-- Lines 87-89: `M[1, 1] *= -1; M[2, 2] *= -1`. -/
def flipMat : Mat4 := fun i j =>
  if i = 1 ∧ j = 1 then -eye4 i j else if i = 2 ∧ j = 2 then -eye4 i j else eye4 i j

/-- Batched 4x4 matrix product (`torch.bmm`, per batch element). -/
def matMul4 (A B : Mat4) : Mat4 := fun i j => ∑ k : Fin 4, A i k * B k j

/-- Line 90: `cam2world_matrix = torch.bmm(cam2world_matrix, M...)`. -/
def convC2w (N : ℕ) (c2w : ℕ → Mat4) (intr : ℕ → Mat3) (n : ℕ) : Mat4 :=
  matMul4 (effC2w N c2w intr n) flipMat

/-- Line 91: `focal = cat([intrinsics[:,0,0:1], intrinsics[:,1,1:2]], 1) * resolution`. -/
def focal (N : ℕ) (intr : ℕ → Mat3) (R n : ℕ) (c : Fin 2) : ℚ :=
  (if c = 0 then effIntr N intr n 0 0 else effIntr N intr n 1 1) * (R : ℚ)

/-- Line 92: `center = cat([intrinsics[:,0,2:3], intrinsics[:,1,2:3]], 1) * resolution`. -/
def center (N : ℕ) (intr : ℕ → Mat3) (R n : ℕ) (c : Fin 2) : ℚ :=
  (if c = 0 then effIntr N intr n 0 2 else effIntr N intr n 1 2) * (R : ℚ)

/-- `torch.linspace(a, b, steps)` at position `k`. -/
def linspaceVal (a b : ℚ) (steps k : ℕ) : ℚ :=
  if steps ≤ 1 then a else a + (k : ℚ) * (b - a) / ((steps : ℚ) - 1)

/-- Lines 94-96: `i, j = meshgrid(linspace(0.5, R-0.5, R), linspace(0.5, R-0.5, R),
indexing='ij')`; `i` carries the first grid index. -/
def iGrid (R a b : ℕ) : ℚ := linspaceVal 0.5 ((R : ℚ) - 0.5) R a

/-- Lines 94-96: the second meshgrid output, carrying the second grid index. -/
def jGrid (R a b : ℕ) : ℚ := linspaceVal 0.5 ((R : ℚ) - 0.5) R b

/-- Line 97: `i = i.t()`. -/
def iT (R a b : ℕ) : ℚ := iGrid R b a

/-- Line 98: `j = j.t()`. -/
def jT (R a b : ℕ) : ℚ := jGrid R b a

/-- Lines 102-105: the stacked camera-space directions before normalization,
`[(i - center_x)/focal_x, -(j - center_y)/focal_y, -1]` at grid cell `(a, b)`. -/
def dirsPre (N : ℕ) (intr : ℕ → Mat3) (R n a b : ℕ) : Vec3Q :=
  ![(iT R a b - center N intr R n 0) / focal N intr R n 0,
    -(jT R a b - center N intr R n 1) / focal N intr R n 1,
    -1]

/-- Line 106: `dirs = dirs / torch.norm(dirs, dim=-1, keepdim=True)`. -/
noncomputable def dirsHat (N : ℕ) (intr : ℕ → Mat3) (R n a b : ℕ) : Fin 3 → ℝ :=
  fun k => (dirsPre N intr R n a b k : ℝ) /
    Real.sqrt ((normSq (dirsPre N intr R n a b) : ℝ))

/-- Line 108: `rays_d = sum(dirs[..., None, :] * cam2world_matrix[:, None, None, :3, :3], -1)`. -/
noncomputable def raysD (N : ℕ) (c2w : ℕ → Mat4) (intr : ℕ → Mat3) (R n a b : ℕ) :
    Fin 3 → ℝ :=
  fun k => ∑ i : Fin 3,
    dirsHat N intr R n a b i * ((convC2w N c2w intr n) k.castSucc i.castSucc : ℝ)

/-- Line 110: `rays_o = cam2world_matrix[:, None, None, :3, -1].expand(...)`. -/
def raysO (N : ℕ) (c2w : ℕ → Mat4) (intr : ℕ → Mat3) (n : ℕ) : Vec3Q :=
  fun k => convC2w N c2w intr n k.castSucc 3

/-- Line 112, `rays_d.reshape(B, H*W, C)`: flat pixel `m` is grid cell `(m / R, m % R)`. -/
noncomputable def avatarDir (N : ℕ) (c2w : ℕ → Mat4) (intr : ℕ → Mat3) (R n m : ℕ) :
    Fin 3 → ℝ :=
  raysD N c2w intr R n (m / R) (m % R)

/-- Line 112, `rays_o.reshape(B, H*W, C)`: constant in the pixel index. -/
def avatarOrigin (N : ℕ) (c2w : ℕ → Mat4) (intr : ℕ → Mat3) (R n m : ℕ) : Vec3Q :=
  raysO N c2w intr n

/-! ### Whole-call wrappers

Neither forward contains a shape check or a raise statement; both are total on
every input, so the `Except` wrapper (recording a hypothetical shape error)
always returns `Except.ok`. -/

inductive ShapeErr : Type
  | mismatch

/-- Whether an `Except` result is a success. -/
def isOkB {α : Type} : Except ShapeErr α → Bool
  | Except.ok _ => true
  | Except.error _ => false

/-- Line 44: `N, M = cam2world_matrix.shape[0], resolution**2`; the output
tensors have shape `(N, M, 3)`. -/
def rsShape (N R : ℕ) : ℕ × ℕ × ℕ := (N, R ^ 2, 3)

/-- `RaySampler.forward` as a whole call: shapes plus both output tensors. -/
noncomputable def rsForward (c2w : ℕ → Mat4) (intr : ℕ → Mat3) (N R : ℕ) :
    Except ShapeErr ((ℕ × ℕ × ℕ) × (ℕ → ℕ → Vec3Q) × (ℕ → ℕ → Fin 3 → ℝ)) :=
  Except.ok (rsShape N R, fun n m => rayOrigin c2w R n m, fun n m => rayDir c2w intr R n m)

/-- Line 112: `B, H, W, C = rays_d.shape` and `reshape(B, H*W, C)`. -/
def avShape (N R : ℕ) : ℕ × ℕ × ℕ := (N, R * R, 3)

/-- `AvatarGenRaySampler.forward` as a whole call. -/
noncomputable def avForward (N : ℕ) (c2w : ℕ → Mat4) (intr : ℕ → Mat3) (R : ℕ) :
    Except ShapeErr ((ℕ × ℕ × ℕ) × (ℕ → ℕ → Vec3Q) × (ℕ → ℕ → Fin 3 → ℝ)) :=
  Except.ok (avShape N R, fun n m => avatarOrigin N c2w intr R n m,
    fun n m => avatarDir N c2w intr R n m)

/-- Column-orthonormality of the upper-left 3x3 rotation block of a 4x4
transform: the three rotation columns are unit length and pairwise orthogonal. -/
def rotOrthonormal (A : Mat4) : Prop :=
  A 0 0 ^ 2 + A 1 0 ^ 2 + A 2 0 ^ 2 = 1 ∧
  A 0 1 ^ 2 + A 1 1 ^ 2 + A 2 1 ^ 2 = 1 ∧
  A 0 2 ^ 2 + A 1 2 ^ 2 + A 2 2 ^ 2 = 1 ∧
  A 0 0 * A 0 1 + A 1 0 * A 1 1 + A 2 0 * A 2 1 = 0 ∧
  A 0 0 * A 0 2 + A 1 0 * A 1 2 + A 2 0 * A 2 2 = 0 ∧
  A 0 1 * A 0 2 + A 1 1 * A 1 2 + A 2 1 * A 2 2 = 0

instance rotOrthonormalDecidable (A : Mat4) : Decidable (rotOrthonormal A) := by
  unfold rotOrthonormal; infer_instance

/-! ### Helper lemmas -/

/-- Closed form of the flattened pixel grid, x coordinate. -/
theorem x_cam_eq (R n m : ℕ) (hR : 0 < R) :
    x_cam R n m = (((m % R : ℕ) : ℚ) + 0.5) / (R : ℚ) := by
  have hRQ : (R : ℚ) ≠ 0 := Nat.cast_ne_zero.mpr hR.ne'
  simp +decide only [x_cam, uvRep, uvFlat, uvFlip, uvMesh, Fin.rev]
  field_simp

/-- Closed form of the flattened pixel grid, y coordinate. -/
theorem y_cam_eq (R n m : ℕ) (hR : 0 < R) :
    y_cam R n m = (((m / R : ℕ) : ℚ) + 0.5) / (R : ℚ) := by
  have hRQ : (R : ℚ) ≠ 0 := Nat.cast_ne_zero.mpr hR.ne'
  simp +decide only [y_cam, uvRep, uvFlat, uvFlip, uvMesh, Fin.rev]
  field_simp

theorem camRelPoint_zero (intr : ℕ → Mat3) (R n m : ℕ) :
    camRelPoint intr R n m 0 = x_lift intr R n m := rfl

theorem camRelPoint_one (intr : ℕ → Mat3) (R n m : ℕ) :
    camRelPoint intr R n m 1 = y_lift intr R n m := rfl

theorem camRelPoint_two (intr : ℕ → Mat3) (R n m : ℕ) :
    camRelPoint intr R n m 2 = z_cam R n m := rfl

theorem camRelPoint_three (intr : ℕ → Mat3) (R n m : ℕ) :
    camRelPoint intr R n m 3 = 1 := rfl

/-- The unnormalized RaySampler direction is the rotation block applied to the
lifted point `(x_lift, y_lift, 1)`. -/
theorem rayDirPre_apply (c2w : ℕ → Mat4) (intr : ℕ → Mat3) (R n m : ℕ) (k : Fin 3) :
    rayDirPre c2w intr R n m k =
      c2w n k.castSucc 0 * x_lift intr R n m + c2w n k.castSucc 1 * y_lift intr R n m
        + c2w n k.castSucc 2 := by
  simp only [rayDirPre, worldRelPoint, camLocsWorld, Fin.sum_univ_four,
    camRelPoint_zero, camRelPoint_one, camRelPoint_two, camRelPoint_three, z_cam]
  ring

/-- Right-multiplying by `flipMat` leaves column 0 unchanged. -/
theorem matMulFlip_col0 (A : Mat4) (i : Fin 4) : matMul4 A flipMat i 0 = A i 0 := by
  simp [matMul4, flipMat, eye4, Fin.sum_univ_four]

/-- Right-multiplying by `flipMat` negates column 1. -/
theorem matMulFlip_col1 (A : Mat4) (i : Fin 4) : matMul4 A flipMat i 1 = -A i 1 := by
  simp [matMul4, flipMat, eye4, Fin.sum_univ_four]

/-- Right-multiplying by `flipMat` negates column 2. -/
theorem matMulFlip_col2 (A : Mat4) (i : Fin 4) : matMul4 A flipMat i 2 = -A i 2 := by
  simp [matMul4, flipMat, eye4, Fin.sum_univ_four]

/-- Right-multiplying by `flipMat` leaves column 3 (the translation) unchanged. -/
theorem matMulFlip_col3 (A : Mat4) (i : Fin 4) : matMul4 A flipMat i 3 = A i 3 := by
  simp [matMul4, flipMat, eye4, Fin.sum_univ_four]

/-- An orthonormal 3x3 block applied to a vector preserves the sum of squares
(entry-level form, usable over any commutative ring). -/
theorem rot_apply_normSq {α : Type} [CommRing α]
    (B00 B01 B02 B10 B11 B12 B20 B21 B22 a b c : α)
    (h00 : B00 ^ 2 + B10 ^ 2 + B20 ^ 2 = 1)
    (h11 : B01 ^ 2 + B11 ^ 2 + B21 ^ 2 = 1)
    (h22 : B02 ^ 2 + B12 ^ 2 + B22 ^ 2 = 1)
    (h01 : B00 * B01 + B10 * B11 + B20 * B21 = 0)
    (h02 : B00 * B02 + B10 * B12 + B20 * B22 = 0)
    (h12 : B01 * B02 + B11 * B12 + B21 * B22 = 0) :
    (B00 * a + B01 * b + B02 * c) ^ 2 + (B10 * a + B11 * b + B12 * c) ^ 2
      + (B20 * a + B21 * b + B22 * c) ^ 2 = a ^ 2 + b ^ 2 + c ^ 2 := by
  linear_combination a ^ 2 * h00 + b ^ 2 * h11 + c ^ 2 * h22 + 2 * a * b * h01
    + 2 * a * c * h02 + 2 * b * c * h12

/-- Axis conversion preserves orthonormality of the rotation block. -/
theorem rotOrthonormal_matMulFlip (A : Mat4) (h : rotOrthonormal A) :
    rotOrthonormal (matMul4 A flipMat) := by
  obtain ⟨h1, h2, h3, h4, h5, h6⟩ := h
  refine ⟨?_, ?_, ?_, ?_, ?_, ?_⟩ <;>
    simp only [matMulFlip_col0, matMulFlip_col1, matMulFlip_col2]
  · linear_combination h1
  · linear_combination h2
  · linear_combination h3
  · linear_combination -h4
  · linear_combination -h5
  · linear_combination h6

theorem castSucc3_zero : (0 : Fin 3).castSucc = (0 : Fin 4) := rfl

theorem castSucc3_one : (1 : Fin 3).castSucc = (1 : Fin 4) := rfl

theorem castSucc3_two : (2 : Fin 3).castSucc = (2 : Fin 4) := rfl

/-- Real norm of a vector whose squares sum to one. -/
theorem norm3_eq_one {w : Fin 3 → ℝ} (h : w 0 ^ 2 + w 1 ^ 2 + w 2 ^ 2 = 1) :
    norm3 w = 1 := by
  rw [norm3, h, Real.sqrt_one]

/-- The square root of a squared norm at least one is at least one. -/
theorem one_le_sqrt_normSq (v : Vec3Q) (h : 1 ≤ normSq v) :
    1 ≤ Real.sqrt ((normSq v : ℝ)) := by
  have h1 : (1 : ℝ) ≤ ((normSq v : ℝ)) := by exact_mod_cast h
  calc (1 : ℝ) = Real.sqrt 1 := Real.sqrt_one.symm
    _ ≤ Real.sqrt ((normSq v : ℝ)) := Real.sqrt_le_sqrt h1

/-- Dividing a nonzero vector by the square root of its squared norm yields a
unit vector (in the sum-of-squares sense). -/
theorem div_sqrt_unit (v : Vec3Q) (h : 1 ≤ normSq v) :
    ((v 0 : ℝ) / Real.sqrt ((normSq v : ℝ))) ^ 2
      + ((v 1 : ℝ) / Real.sqrt ((normSq v : ℝ))) ^ 2
      + ((v 2 : ℝ) / Real.sqrt ((normSq v : ℝ))) ^ 2 = 1 := by
  have hq : (0 : ℝ) < ((normSq v : ℝ)) := by
    have : (0 : ℚ) < normSq v := lt_of_lt_of_le one_pos h
    exact_mod_cast this
  have hs : Real.sqrt ((normSq v : ℝ)) ≠ 0 := by
    have := one_le_sqrt_normSq v h
    linarith
  have hs2 : Real.sqrt ((normSq v : ℝ)) ^ 2 = ((normSq v : ℝ)) := Real.sq_sqrt hq.le
  have hcast : ((v 0 : ℝ)) ^ 2 + ((v 1 : ℝ)) ^ 2 + ((v 2 : ℝ)) ^ 2 = ((normSq v : ℝ)) := by
    rw [normSq]; push_cast; ring
  field_simp
  exact hcast

/-- The squared norm of the unnormalized RaySampler direction under an
orthonormal rotation block. -/
theorem normSq_rayDirPre (c2w : ℕ → Mat4) (intr : ℕ → Mat3) (R n m : ℕ)
    (h : rotOrthonormal (c2w n)) :
    normSq (rayDirPre c2w intr R n m) =
      x_lift intr R n m ^ 2 + y_lift intr R n m ^ 2 + 1 := by
  obtain ⟨h1, h2, h3, h4, h5, h6⟩ := h
  have e := rot_apply_normSq (c2w n 0 0) (c2w n 0 1) (c2w n 0 2) (c2w n 1 0) (c2w n 1 1)
    (c2w n 1 2) (c2w n 2 0) (c2w n 2 1) (c2w n 2 2)
    (x_lift intr R n m) (y_lift intr R n m) 1 h1 h2 h3 h4 h5 h6
  simp only [normSq, rayDirPre_apply, castSucc3_zero, castSucc3_one, castSucc3_two]
  linear_combination e

/-- Under an orthonormal rotation block, the unnormalized RaySampler direction
has squared norm at least one. -/
theorem one_le_normSq_rayDirPre (c2w : ℕ → Mat4) (intr : ℕ → Mat3) (R n m : ℕ)
    (h : rotOrthonormal (c2w n)) :
    1 ≤ normSq (rayDirPre c2w intr R n m) := by
  rw [normSq_rayDirPre c2w intr R n m h]
  nlinarith [sq_nonneg (x_lift intr R n m), sq_nonneg (y_lift intr R n m)]

/-- With a squared norm at least one, the `eps` in `F.normalize` is inactive and
the RaySampler direction is exactly the division by the norm. -/
theorem rayDir_eq_div (c2w : ℕ → Mat4) (intr : ℕ → Mat3) (R n m : ℕ)
    (h : 1 ≤ normSq (rayDirPre c2w intr R n m)) (k : Fin 3) :
    rayDir c2w intr R n m k = (rayDirPre c2w intr R n m k : ℝ) /
      Real.sqrt ((normSq (rayDirPre c2w intr R n m) : ℝ)) := by
  have hs := one_le_sqrt_normSq _ h
  rw [rayDir, max_eq_left (by norm_num; linarith)]

/-- Under an orthonormal rotation block the normalized RaySampler direction is
a unit vector. -/
theorem norm3_rayDir (c2w : ℕ → Mat4) (intr : ℕ → Mat3) (R n m : ℕ)
    (h : rotOrthonormal (c2w n)) :
    norm3 (rayDir c2w intr R n m) = 1 := by
  have h1 := one_le_normSq_rayDirPre c2w intr R n m h
  apply norm3_eq_one
  rw [rayDir_eq_div c2w intr R n m h1, rayDir_eq_div c2w intr R n m h1,
    rayDir_eq_div c2w intr R n m h1]
  exact div_sqrt_unit _ h1

theorem dirsPre_two (N : ℕ) (intr : ℕ → Mat3) (R n a b : ℕ) :
    dirsPre N intr R n a b 2 = -1 := rfl

/-- The unnormalized AvatarGen direction always has squared norm at least one
because its z component is exactly -1. -/
theorem one_le_normSq_dirsPre (N : ℕ) (intr : ℕ → Mat3) (R n a b : ℕ) :
    1 ≤ normSq (dirsPre N intr R n a b) := by
  simp only [normSq, dirsPre_two]
  nlinarith [sq_nonneg (dirsPre N intr R n a b 0), sq_nonneg (dirsPre N intr R n a b 1)]

/-- The normalized AvatarGen camera-space direction is a unit vector. -/
theorem dirsHat_unit (N : ℕ) (intr : ℕ → Mat3) (R n a b : ℕ) :
    dirsHat N intr R n a b 0 ^ 2 + dirsHat N intr R n a b 1 ^ 2
      + dirsHat N intr R n a b 2 ^ 2 = 1 := by
  simp only [dirsHat]
  exact div_sqrt_unit _ (one_le_normSq_dirsPre N intr R n a b)

/-- The world-space AvatarGen direction is the rotation block applied to the
normalized camera-space direction. -/
theorem raysD_apply (N : ℕ) (c2w : ℕ → Mat4) (intr : ℕ → Mat3) (R n a b : ℕ) (k : Fin 3) :
    raysD N c2w intr R n a b k =
      ((convC2w N c2w intr n k.castSucc 0 : ℚ) : ℝ) * dirsHat N intr R n a b 0
      + ((convC2w N c2w intr n k.castSucc 1 : ℚ) : ℝ) * dirsHat N intr R n a b 1
      + ((convC2w N c2w intr n k.castSucc 2 : ℚ) : ℝ) * dirsHat N intr R n a b 2 := by
  simp only [raysD, Fin.sum_univ_three, castSucc3_zero, castSucc3_one, castSucc3_two]
  ring

/-- World-space AvatarGen directions are unit vectors whenever the converted
cam2world rotation block is orthonormal. -/
theorem norm3_raysD_orth (N : ℕ) (c2w : ℕ → Mat4) (intr : ℕ → Mat3) (R n a b : ℕ)
    (h : rotOrthonormal (convC2w N c2w intr n)) :
    norm3 (raysD N c2w intr R n a b) = 1 := by
  obtain ⟨h1, h2, h3, h4, h5, h6⟩ := h
  apply norm3_eq_one
  rw [raysD_apply, raysD_apply, raysD_apply, castSucc3_zero, castSucc3_one, castSucc3_two]
  have e := rot_apply_normSq
    ((convC2w N c2w intr n 0 0 : ℚ) : ℝ) ((convC2w N c2w intr n 0 1 : ℚ) : ℝ)
    ((convC2w N c2w intr n 0 2 : ℚ) : ℝ) ((convC2w N c2w intr n 1 0 : ℚ) : ℝ)
    ((convC2w N c2w intr n 1 1 : ℚ) : ℝ) ((convC2w N c2w intr n 1 2 : ℚ) : ℝ)
    ((convC2w N c2w intr n 2 0 : ℚ) : ℝ) ((convC2w N c2w intr n 2 1 : ℚ) : ℝ)
    ((convC2w N c2w intr n 2 2 : ℚ) : ℝ)
    (dirsHat N intr R n a b 0) (dirsHat N intr R n a b 1) (dirsHat N intr R n a b 2)
    (by exact_mod_cast h1) (by exact_mod_cast h2) (by exact_mod_cast h3)
    (by exact_mod_cast h4) (by exact_mod_cast h5) (by exact_mod_cast h6)
  rw [e]
  exact dirsHat_unit N intr R n a b

/-- In the diagnostic (all-zero intrinsics) branch, the converted cam2world is
the converted hard-coded diagnostic matrix, whatever cam2world was passed. -/
theorem convC2w_dry (N : ℕ) (c2w : ℕ → Mat4) (intr : ℕ → Mat3) (n : ℕ)
    (h : allZero N intr) :
    convC2w N c2w intr n = matMul4 camera2world_dry_run flipMat := by
  simp only [convC2w, effC2w, if_pos h]

theorem dryConv00 : matMul4 camera2world_dry_run flipMat 0 0 = 7.1037e-3 := by
  norm_num +decide [matMul4, flipMat, eye4, camera2world_dry_run, Fin.sum_univ_four]

theorem dryConv01 : matMul4 camera2world_dry_run flipMat 0 1 = 8.6363e-1 := by
  norm_num +decide [matMul4, flipMat, eye4, camera2world_dry_run, Fin.sum_univ_four]

theorem dryConv02 : matMul4 camera2world_dry_run flipMat 0 2 = -5.0408e-1 := by
  norm_num +decide [matMul4, flipMat, eye4, camera2world_dry_run, Fin.sum_univ_four]

theorem dryConv10 : matMul4 camera2world_dry_run flipMat 1 0 = -8.4197e-1 := by
  norm_num +decide [matMul4, flipMat, eye4, camera2world_dry_run, Fin.sum_univ_four]

theorem dryConv11 : matMul4 camera2world_dry_run flipMat 1 1 = 2.7712e-1 := by
  norm_num +decide [matMul4, flipMat, eye4, camera2world_dry_run, Fin.sum_univ_four]

theorem dryConv12 : matMul4 camera2world_dry_run flipMat 1 2 = 4.6292e-1 := by
  norm_num +decide [matMul4, flipMat, eye4, camera2world_dry_run, Fin.sum_univ_four]

theorem dryConv20 : matMul4 camera2world_dry_run flipMat 2 0 = 5.3948e-1 := by
  norm_num +decide [matMul4, flipMat, eye4, camera2world_dry_run, Fin.sum_univ_four]

theorem dryConv21 : matMul4 camera2world_dry_run flipMat 2 1 = 4.2113e-1 := by
  norm_num +decide [matMul4, flipMat, eye4, camera2world_dry_run, Fin.sum_univ_four]

theorem dryConv22 : matMul4 camera2world_dry_run flipMat 2 2 = 7.2911e-1 := by
  norm_num +decide [matMul4, flipMat, eye4, camera2world_dry_run, Fin.sum_univ_four]

/-- The hard-coded diagnostic rotation block is orthonormal only up to about
2e-5: applying it to a unit vector changes the squared norm by at most 1.7e-5. -/
theorem dry_unit_bound (a b c : ℝ) (h : a ^ 2 + b ^ 2 + c ^ 2 = 1) :
    1 - 1.7e-5 ≤ (7.1037e-3 * a + 8.6363e-1 * b + -5.0408e-1 * c) ^ 2
      + (-8.4197e-1 * a + 2.7712e-1 * b + 4.6292e-1 * c) ^ 2
      + (5.3948e-1 * a + 4.2113e-1 * b + 7.2911e-1 * c) ^ 2 ∧
    (7.1037e-3 * a + 8.6363e-1 * b + -5.0408e-1 * c) ^ 2
      + (-8.4197e-1 * a + 2.7712e-1 * b + 4.6292e-1 * c) ^ 2
      + (5.3948e-1 * a + 4.2113e-1 * b + 7.2911e-1 * c) ^ 2 ≤ 1 + 1.7e-5 := by
  constructor <;>
    nlinarith [sq_nonneg (a - b), sq_nonneg (a + b), sq_nonneg (a - c), sq_nonneg (a + c),
      sq_nonneg (b - c), sq_nonneg (b + c), sq_nonneg a, sq_nonneg b, sq_nonneg c]

/-- A quantity within 1.7e-5 of one has square root within 1e-5 of one. -/
theorem sqrt_near_one {S : ℝ} (hlo : 1 - 1.7e-5 ≤ S) (hhi : S ≤ 1 + 1.7e-5) :
    |Real.sqrt S - 1| ≤ 1e-5 := by
  rw [abs_le]
  constructor
  · have h2 : ((1 : ℝ) - 1e-5) ^ 2 ≤ S := by nlinarith
    have h3 := Real.sqrt_le_sqrt h2
    rw [Real.sqrt_sq (by norm_num : (0:ℝ) ≤ 1 - 1e-5)] at h3
    linarith
  · have h2 : S ≤ ((1 : ℝ) + 1e-5) ^ 2 := by nlinarith
    have h3 := Real.sqrt_le_sqrt h2
    rw [Real.sqrt_sq (by norm_num : (0:ℝ) ≤ 1 + 1e-5)] at h3
    linarith

/-- In the diagnostic branch, world-space AvatarGen directions have norm within
1e-5 of one (the hard-coded diagnostic rotation is orthonormal only to within
its five-significant-digit entries). -/
theorem avatar_dry_norm (N : ℕ) (c2w : ℕ → Mat4) (intr : ℕ → Mat3) (R n a b : ℕ)
    (h : allZero N intr) :
    |norm3 (raysD N c2w intr R n a b) - 1| ≤ 1e-5 := by
  have hu := dirsHat_unit N intr R n a b
  have e0 : raysD N c2w intr R n a b 0 =
      7.1037e-3 * dirsHat N intr R n a b 0 + 8.6363e-1 * dirsHat N intr R n a b 1
        + -5.0408e-1 * dirsHat N intr R n a b 2 := by
    rw [raysD_apply, convC2w_dry N c2w intr n h, castSucc3_zero, dryConv00, dryConv01, dryConv02]
    push_cast
    norm_num
  have e1 : raysD N c2w intr R n a b 1 =
      -8.4197e-1 * dirsHat N intr R n a b 0 + 2.7712e-1 * dirsHat N intr R n a b 1
        + 4.6292e-1 * dirsHat N intr R n a b 2 := by
    rw [raysD_apply, convC2w_dry N c2w intr n h, castSucc3_one, dryConv10, dryConv11, dryConv12]
    push_cast
    norm_num
  have e2 : raysD N c2w intr R n a b 2 =
      5.3948e-1 * dirsHat N intr R n a b 0 + 4.2113e-1 * dirsHat N intr R n a b 1
        + 7.2911e-1 * dirsHat N intr R n a b 2 := by
    rw [raysD_apply, convC2w_dry N c2w intr n h, castSucc3_two, dryConv20, dryConv21, dryConv22]
    push_cast
    norm_num
  have hb := dry_unit_bound (dirsHat N intr R n a b 0) (dirsHat N intr R n a b 1)
    (dirsHat N intr R n a b 2) hu
  rw [norm3, e0, e1, e2]
  exact sqrt_near_one hb.1 hb.2

/-- The AvatarGen pixel grid linspace evaluates to pixel centers `k + 0.5`. -/
theorem linspaceVal_grid (R k : ℕ) (hk : k < R) :
    linspaceVal 0.5 ((R : ℚ) - 0.5) R k = (k : ℚ) + 0.5 := by
  rcases Nat.lt_or_ge R 2 with h2 | h2
  · have hR1 : R = 1 := by omega
    have hk0 : k = 0 := by omega
    subst hR1 hk0
    norm_num [linspaceVal]
  · have hR1 : ¬ (R ≤ 1) := by omega
    have hQ : ((R : ℚ) - 1) ≠ 0 := by
      have h2Q : (2 : ℚ) ≤ (R : ℚ) := by exact_mod_cast h2
      linarith
    rw [linspaceVal, if_neg hR1]
    field_simp
    ring

/-! ### Claim theorems -/

/-- C1: for every input whose cam2world rotation blocks are orthonormal (and,
for RaySampler, whose unprojected world point differs from the camera origin at
every pixel), every returned direction vector of both `RaySampler.forward` and
`AvatarGenRaySampler.forward` has euclidean norm 1 up to floating-point
tolerance (1e-5), for all `n < N` and `m < R * R`. -/
theorem C1_directions_unit_norm (N R n m : ℕ) (c2w : ℕ → Mat4) (intr : ℕ → Mat3)
    (hn : n < N) (hm : m < R * R)
    (horth : ∀ k < N, rotOrthonormal (c2w k))
    (hsep : ∀ p < R * R, worldRelPoint c2w intr R n p ≠ camLocsWorld c2w n) :
    |norm3 (rayDir c2w intr R n m) - 1| ≤ 1e-5 ∧
    |norm3 (avatarDir N c2w intr R n m) - 1| ≤ 1e-5 := by
  constructor
  · rw [norm3_rayDir c2w intr R n m (horth n hn)]
    norm_num
  · show |norm3 (raysD N c2w intr R n (m / R) (m % R)) - 1| ≤ 1e-5
    by_cases hz : allZero N intr
    · exact avatar_dry_norm N c2w intr R n (m / R) (m % R) hz
    · have hc : convC2w N c2w intr n = matMul4 (c2w n) flipMat := by
        simp only [convC2w, effC2w, if_neg hz]
      rw [norm3_raysD_orth N c2w intr R n (m / R) (m % R)
        (hc ▸ rotOrthonormal_matMulFlip (c2w n) (horth n hn))]
      norm_num

theorem C1_directions_unit_norm_witness :
    ((0 : ℕ) < 1 ∧ (0 : ℕ) < 1 * 1 ∧
     (∀ k < 1, rotOrthonormal ((fun _ => eye4) k)) ∧
     (∀ p < 1 * 1, worldRelPoint (fun _ => eye4) (fun _ i j => if i = j then (1 : ℚ) else 0) 1 0 p
        ≠ camLocsWorld (fun _ => eye4) 0)) ∧
    |norm3 (rayDir (fun _ => eye4) (fun _ i j => if i = j then (1 : ℚ) else 0) 1 0 0) - 1| ≤ 1e-5 ∧
    |norm3 (avatarDir 1 (fun _ => eye4) (fun _ i j => if i = j then (1 : ℚ) else 0) 1 0 0) - 1| ≤ 1e-5 := by
  have horth : ∀ k < 1, rotOrthonormal ((fun _ => eye4) k) := by
    intro k _
    simp +decide [rotOrthonormal, eye4]
  have hsep : ∀ p < 1 * 1, worldRelPoint (fun _ => eye4) (fun _ i j => if i = j then (1 : ℚ) else 0) 1 0 p
      ≠ camLocsWorld (fun _ => eye4) 0 := by
    intro p hp hEq
    interval_cases p
    have h2 := congrFun hEq 2
    norm_num +decide [worldRelPoint, camRelPoint, camLocsWorld, x_lift, y_lift, z_cam,
      x_cam, y_cam, uvRep, uvFlat, uvFlip, uvMesh, cx, cy, sk, fx, fy, eye4,
      Fin.sum_univ_four] at h2
  exact ⟨⟨one_pos, one_pos, horth, hsep⟩,
    C1_directions_unit_norm 1 1 0 0 (fun _ => eye4) (fun _ i j => if i = j then (1 : ℚ) else 0)
      one_pos one_pos horth hsep⟩

/-- C2: in `RaySampler.forward`, for every camera with nonzero `fx` and `fy`
and every flat pixel index, the camera-space lifted point before the cam2world
transform equals `(x_lift, y_lift, 1)` with the claimed closed forms, and this
is the inverse of the skewed pinhole projection at unit depth: projecting the
lifted point through the intrinsics recovers the pixel coordinates. -/
theorem C2_lift_closed_form (intr : ℕ → Mat3) (R n m : ℕ)
    (hfx : fx intr n ≠ 0) (hfy : fy intr n ≠ 0) :
    camRelPoint intr R n m 0
        = (x_cam R n m - cx intr n + cy intr n * sk intr n / fy intr n
            - sk intr n * y_cam R n m / fy intr n) / fx intr n ∧
    camRelPoint intr R n m 1 = (y_cam R n m - cy intr n) / fy intr n ∧
    camRelPoint intr R n m 2 = 1 ∧
    fx intr n * camRelPoint intr R n m 0 + sk intr n * camRelPoint intr R n m 1
        + cx intr n = x_cam R n m ∧
    fy intr n * camRelPoint intr R n m 1 + cy intr n = y_cam R n m := by
  rw [camRelPoint_zero, camRelPoint_one, camRelPoint_two]
  refine ⟨by rw [x_lift, z_cam, mul_one], by rw [y_lift, z_cam, mul_one], rfl, ?_, ?_⟩
  · rw [x_lift, y_lift, z_cam, mul_one, mul_one]
    field_simp
    ring
  · rw [y_lift, z_cam, mul_one]
    field_simp

theorem C2_lift_closed_form_witness :
    (fx (fun _ => intrinsics_dry_run) 0 ≠ 0 ∧ fy (fun _ => intrinsics_dry_run) 0 ≠ 0) ∧
    (camRelPoint (fun _ => intrinsics_dry_run) 4 0 1 0
        = (x_cam 4 0 1 - cx (fun _ => intrinsics_dry_run) 0
            + cy (fun _ => intrinsics_dry_run) 0 * sk (fun _ => intrinsics_dry_run) 0
              / fy (fun _ => intrinsics_dry_run) 0
            - sk (fun _ => intrinsics_dry_run) 0 * y_cam 4 0 1
              / fy (fun _ => intrinsics_dry_run) 0) / fx (fun _ => intrinsics_dry_run) 0 ∧
     camRelPoint (fun _ => intrinsics_dry_run) 4 0 1 1
        = (y_cam 4 0 1 - cy (fun _ => intrinsics_dry_run) 0) / fy (fun _ => intrinsics_dry_run) 0 ∧
     camRelPoint (fun _ => intrinsics_dry_run) 4 0 1 2 = 1 ∧
     fx (fun _ => intrinsics_dry_run) 0 * camRelPoint (fun _ => intrinsics_dry_run) 4 0 1 0
        + sk (fun _ => intrinsics_dry_run) 0 * camRelPoint (fun _ => intrinsics_dry_run) 4 0 1 1
        + cx (fun _ => intrinsics_dry_run) 0 = x_cam 4 0 1 ∧
     fy (fun _ => intrinsics_dry_run) 0 * camRelPoint (fun _ => intrinsics_dry_run) 4 0 1 1
        + cy (fun _ => intrinsics_dry_run) 0 = y_cam 4 0 1) := by
  have hfx : fx (fun _ => intrinsics_dry_run) 0 ≠ 0 := by
    norm_num [fx, intrinsics_dry_run]
  have hfy : fy (fun _ => intrinsics_dry_run) 0 ≠ 0 := by
    norm_num [fy, intrinsics_dry_run]
  exact ⟨⟨hfx, hfy⟩, C2_lift_closed_form (fun _ => intrinsics_dry_run) 4 0 1 hfx hfy⟩

/-- C3: in `AvatarGenRaySampler.forward` with a not-all-zero intrinsics batch,
for every camera with nonzero `fx`, `fy` and flat pixel index `m = r*R + c`,
the camera-space direction before normalization is
`((c + 0.5 - cx*R)/(fx*R), -((r + 0.5) - cy*R)/(fy*R), -1)`, the normalized
intrinsics entries having been scaled by the resolution. -/
theorem C3_avatar_premul_direction (N : ℕ) (intr : ℕ → Mat3)
    (R n r c : ℕ) (hnz : ¬ allZero N intr) (hr : r < R) (hc : c < R)
    (hfx : intr n 0 0 ≠ 0) (hfy : intr n 1 1 ≠ 0) :
    dirsPre N intr R n ((r * R + c) / R) ((r * R + c) % R)
      = ![((c : ℚ) + 0.5 - intr n 0 2 * (R : ℚ)) / (intr n 0 0 * (R : ℚ)),
          -(((r : ℚ) + 0.5) - intr n 1 2 * (R : ℚ)) / (intr n 1 1 * (R : ℚ)),
          -1] := by
  have hR : 0 < R := lt_of_le_of_lt (Nat.zero_le c) hc
  have hdiv : (r * R + c) / R = r := by
    rw [mul_comm, Nat.mul_add_div hR, Nat.div_eq_of_lt hc, add_zero]
  have hmod : (r * R + c) % R = c := by
    rw [mul_comm, Nat.mul_add_mod, Nat.mod_eq_of_lt hc]
  rw [hdiv, hmod]
  funext k
  fin_cases k
  · simp only [dirsPre, iT, iGrid, jT, jGrid, center, focal, effIntr, if_neg hnz,
      linspaceVal_grid R c hc, Matrix.cons_val_zero]
    norm_num
  · simp only [dirsPre, iT, iGrid, jT, jGrid, center, focal, effIntr, if_neg hnz,
      linspaceVal_grid R r hr, Matrix.cons_val_one, Matrix.head_cons]
    norm_num
  · rfl

theorem C3_avatar_premul_direction_witness :
    (¬ allZero 1 (fun _ => intrinsics_dry_run) ∧ (0 : ℕ) < 2 ∧ (1 : ℕ) < 2 ∧
     (fun _ => intrinsics_dry_run) 0 0 0 ≠ (0 : ℚ) ∧
     (fun _ => intrinsics_dry_run) 0 1 1 ≠ (0 : ℚ)) ∧
    dirsPre 1 (fun _ => intrinsics_dry_run) 2 0 ((0 * 2 + 1) / 2) ((0 * 2 + 1) % 2)
      = ![(((1 : ℕ) : ℚ) + 0.5 - (fun _ => intrinsics_dry_run) 0 0 2 * ((2 : ℕ) : ℚ))
            / ((fun _ => intrinsics_dry_run) 0 0 0 * ((2 : ℕ) : ℚ)),
          -((((0 : ℕ) : ℚ) + 0.5) - (fun _ => intrinsics_dry_run) 0 1 2 * ((2 : ℕ) : ℚ))
            / ((fun _ => intrinsics_dry_run) 0 1 1 * ((2 : ℕ) : ℚ)),
          -1] := by
  have hnz : ¬ allZero 1 (fun _ => intrinsics_dry_run) :=
    fun h => absurd (h 0 one_pos 0 0) (by norm_num [intrinsics_dry_run])
  have hfx : (fun _ => intrinsics_dry_run) 0 0 0 ≠ (0 : ℚ) := by
    norm_num [intrinsics_dry_run]
  have hfy : (fun _ => intrinsics_dry_run) 0 1 1 ≠ (0 : ℚ) := by
    norm_num [intrinsics_dry_run]
  exact ⟨⟨hnz, by norm_num, by norm_num, hfx, hfy⟩,
    C3_avatar_premul_direction 1 (fun _ => intrinsics_dry_run) 2 0 0 1 hnz
      (by norm_num) (by norm_num) hfx hfy⟩

/-- C4: for every camera, the returned origin is the same 3-vector for every
pixel index in range and equals the translation column of that camera's
cam2world matrix: the supplied one for `RaySampler`, the axis-converted one for
`AvatarGenRaySampler` (the conversion leaves the translation unchanged, so
outside the diagnostic branch it is the supplied translation). -/
theorem C4_origins_translation (N : ℕ) (c2w : ℕ → Mat4) (intr : ℕ → Mat3) (R n m m2 : ℕ)
    (hn : n < N) (hm : m < R * R) (hm2 : m2 < R * R) :
    rayOrigin c2w R n m = rayOrigin c2w R n m2 ∧
    (∀ k : Fin 3, rayOrigin c2w R n m k = c2w n k.castSucc 3) ∧
    avatarOrigin N c2w intr R n m = avatarOrigin N c2w intr R n m2 ∧
    (∀ k : Fin 3, avatarOrigin N c2w intr R n m k = convC2w N c2w intr n k.castSucc 3) ∧
    (∀ k : Fin 3, convC2w N c2w intr n k.castSucc 3 = effC2w N c2w intr n k.castSucc 3) ∧
    (¬ allZero N intr → ∀ k : Fin 3, avatarOrigin N c2w intr R n m k = c2w n k.castSucc 3) := by
  refine ⟨rfl, fun k => rfl, rfl, fun k => rfl, fun k => matMulFlip_col3 _ _, fun hz k => ?_⟩
  show raysO N c2w intr n k = _
  rw [raysO, convC2w, matMulFlip_col3, effC2w, if_neg hz]

theorem C4_origins_translation_witness :
    ((0 : ℕ) < 1 ∧ (0 : ℕ) < 2 * 2 ∧ (3 : ℕ) < 2 * 2) ∧
    (rayOrigin (fun _ => camera2world_dry_run) 2 0 0
        = rayOrigin (fun _ => camera2world_dry_run) 2 0 3 ∧
     (∀ k : Fin 3, rayOrigin (fun _ => camera2world_dry_run) 2 0 0 k
        = (fun _ => camera2world_dry_run) 0 k.castSucc 3) ∧
     avatarOrigin 1 (fun _ => camera2world_dry_run) (fun _ => intrinsics_dry_run) 2 0 0
        = avatarOrigin 1 (fun _ => camera2world_dry_run) (fun _ => intrinsics_dry_run) 2 0 3 ∧
     (∀ k : Fin 3, avatarOrigin 1 (fun _ => camera2world_dry_run) (fun _ => intrinsics_dry_run) 2 0 0 k
        = convC2w 1 (fun _ => camera2world_dry_run) (fun _ => intrinsics_dry_run) 0 k.castSucc 3) ∧
     (∀ k : Fin 3, convC2w 1 (fun _ => camera2world_dry_run) (fun _ => intrinsics_dry_run) 0 k.castSucc 3
        = effC2w 1 (fun _ => camera2world_dry_run) (fun _ => intrinsics_dry_run) 0 k.castSucc 3) ∧
     (¬ allZero 1 (fun _ => intrinsics_dry_run) →
       ∀ k : Fin 3, avatarOrigin 1 (fun _ => camera2world_dry_run) (fun _ => intrinsics_dry_run) 2 0 0 k
          = (fun _ => camera2world_dry_run) 0 k.castSucc 3)) :=
  ⟨⟨one_pos, by norm_num, by norm_num⟩,
    C4_origins_translation 1 (fun _ => camera2world_dry_run) (fun _ => intrinsics_dry_run)
      2 0 0 3 one_pos (by norm_num) (by norm_num)⟩

/-- C5: whenever the intrinsics batch is entirely zero, the AvatarGen outputs
are those computed from the hard-coded diagnostic intrinsics and cam2world
broadcast to the batch, are independent of the supplied cam2world argument, and
the call succeeds. -/
theorem C5_dry_run_substitution (N : ℕ) (c2w c2w2 : ℕ → Mat4) (intr : ℕ → Mat3) (R n m : ℕ)
    (h : allZero N intr) :
    avatarDir N c2w intr R n m
        = avatarDir N (fun _ => camera2world_dry_run) (fun _ => intrinsics_dry_run) R n m ∧
    avatarOrigin N c2w intr R n m
        = avatarOrigin N (fun _ => camera2world_dry_run) (fun _ => intrinsics_dry_run) R n m ∧
    avatarDir N c2w intr R n m = avatarDir N c2w2 intr R n m ∧
    avatarOrigin N c2w intr R n m = avatarOrigin N c2w2 intr R n m ∧
    isOkB (avForward N c2w intr R) = true := by
  have eI : effIntr N intr = fun _ => intrinsics_dry_run := by
    simp only [effIntr, if_pos h]
  have eC : effC2w N c2w intr = fun _ => camera2world_dry_run := by
    simp only [effC2w, if_pos h]
  have eC2 : effC2w N c2w2 intr = fun _ => camera2world_dry_run := by
    simp only [effC2w, if_pos h]
  have eI2 : effIntr N (fun _ => intrinsics_dry_run) = fun _ => intrinsics_dry_run := by
    simp only [effIntr, ite_self]
  have eC3 : effC2w N (fun _ => camera2world_dry_run) (fun _ => intrinsics_dry_run)
      = fun _ => camera2world_dry_run := by
    simp only [effC2w, ite_self]
  refine ⟨?_, ?_, ?_, ?_, rfl⟩
  · funext k
    simp only [avatarDir, raysD, dirsHat, dirsPre, center, focal, convC2w, eI, eC, eI2, eC3]
  · funext k
    simp only [avatarOrigin, raysO, convC2w, eC, eC3]
  · funext k
    simp only [avatarDir, raysD, dirsHat, dirsPre, center, focal, convC2w, eI, eC, eC2]
  · funext k
    simp only [avatarOrigin, raysO, convC2w, eC, eC2]

theorem C5_dry_run_substitution_witness :
    allZero 2 (fun _ _ _ => 0) ∧
    (avatarDir 2 (fun _ => eye4) (fun _ _ _ => 0) 3 1 4
        = avatarDir 2 (fun _ => camera2world_dry_run) (fun _ => intrinsics_dry_run) 3 1 4 ∧
     avatarOrigin 2 (fun _ => eye4) (fun _ _ _ => 0) 3 1 4
        = avatarOrigin 2 (fun _ => camera2world_dry_run) (fun _ => intrinsics_dry_run) 3 1 4 ∧
     avatarDir 2 (fun _ => eye4) (fun _ _ _ => 0) 3 1 4
        = avatarDir 2 (fun _ => camera2world_dry_run) (fun _ _ _ => 0) 3 1 4 ∧
     avatarOrigin 2 (fun _ => eye4) (fun _ _ _ => 0) 3 1 4
        = avatarOrigin 2 (fun _ => camera2world_dry_run) (fun _ _ _ => 0) 3 1 4 ∧
     isOkB (avForward 2 (fun _ => eye4) (fun _ _ _ => 0) 3) = true) :=
  ⟨fun _ _ _ _ => rfl,
    C5_dry_run_substitution 2 (fun _ => eye4) (fun _ => camera2world_dry_run)
      (fun _ _ _ => 0) 3 1 4 (fun _ _ _ _ => rfl)⟩

/-- C6: the flattened normalized pixel grid of `RaySampler.forward` satisfies
`x_cam[m] = ((m mod R) + 0.5)/R` and `y_cam[m] = ((m div R) + 0.5)/R`, the
coordinates lie in `[0,1)`, and the same pairs are used for every camera. -/
theorem C6_grid_layout (R N n n2 m : ℕ) (hR : 0 < R) (hm : m < R * R) :
    x_cam R n m = (((m % R : ℕ) : ℚ) + 0.5) / (R : ℚ) ∧
    y_cam R n m = (((m / R : ℕ) : ℚ) + 0.5) / (R : ℚ) ∧
    0 ≤ x_cam R n m ∧ x_cam R n m < 1 ∧
    0 ≤ y_cam R n m ∧ y_cam R n m < 1 ∧
    x_cam R n m = x_cam R n2 m ∧ y_cam R n m = y_cam R n2 m := by
  have hRQ : (0 : ℚ) < (R : ℚ) := by exact_mod_cast hR
  have hxm : (m % R : ℕ) < R := Nat.mod_lt m hR
  have hym : (m / R : ℕ) < R := Nat.div_lt_iff_lt_mul hR |>.mpr hm
  have hxQ : ((m % R : ℕ) : ℚ) + 1 ≤ (R : ℚ) := by exact_mod_cast hxm
  have hyQ : ((m / R : ℕ) : ℚ) + 1 ≤ (R : ℚ) := by exact_mod_cast hym
  have hx0 : (0 : ℚ) ≤ ((m % R : ℕ) : ℚ) := Nat.cast_nonneg _
  have hy0 : (0 : ℚ) ≤ ((m / R : ℕ) : ℚ) := Nat.cast_nonneg _
  refine ⟨x_cam_eq R n m hR, y_cam_eq R n m hR, ?_, ?_, ?_, ?_, rfl, rfl⟩
  · rw [x_cam_eq R n m hR]
    positivity
  · rw [x_cam_eq R n m hR, div_lt_one hRQ]
    linarith
  · rw [y_cam_eq R n m hR]
    positivity
  · rw [y_cam_eq R n m hR, div_lt_one hRQ]
    linarith

theorem C6_grid_layout_witness :
    ((0 : ℕ) < 3 ∧ (7 : ℕ) < 3 * 3) ∧
    (x_cam 3 0 7 = (((7 % 3 : ℕ) : ℚ) + 0.5) / ((3 : ℕ) : ℚ) ∧
     y_cam 3 0 7 = (((7 / 3 : ℕ) : ℚ) + 0.5) / ((3 : ℕ) : ℚ) ∧
     0 ≤ x_cam 3 0 7 ∧ x_cam 3 0 7 < 1 ∧
     0 ≤ y_cam 3 0 7 ∧ y_cam 3 0 7 < 1 ∧
     x_cam 3 0 7 = x_cam 3 5 7 ∧ y_cam 3 0 7 = y_cam 3 5 7) :=
  ⟨⟨by norm_num, by norm_num⟩, C6_grid_layout 3 9 0 5 7 (by norm_num) (by norm_num)⟩

/-- C7 as stated is false: with intrinsics `[[2,0,1],[0,2,1],[0,0,1]]` and
resolution 2, the camera-space x offset before normalization at pixel 0 is
-3/8, not one of the claimed values of plus or minus 1/8 (0.125). -/
theorem C7_counterexample :
    x_lift (fun _ => ![![2, 0, 1], ![0, 2, 1], ![0, 0, 1]]) 2 0 0 = -(3/8) ∧
    ¬ (x_lift (fun _ => ![![2, 0, 1], ![0, 2, 1], ![0, 0, 1]]) 2 0 0 = 1/8 ∨
       x_lift (fun _ => ![![2, 0, 1], ![0, 2, 1], ![0, 0, 1]]) 2 0 0 = -(1/8)) := by
  have e : x_lift (fun _ => ![![2, 0, 1], ![0, 2, 1], ![0, 0, 1]]) 2 0 0 = -(3/8) := by
    norm_num +decide [x_lift, x_cam, y_cam, z_cam, uvRep, uvFlat, uvFlip, uvMesh,
      cx, cy, sk, fx, fy]
  exact ⟨e, by rw [e]; norm_num⟩

/-- C7 amended: the scenario returns 4 rays with origins all `(0,0,0)`, and the
camera-space points before normalization are `(x_cam - 1, y_cam - 1)/2` at unit
depth for pixel centers `x_cam, y_cam` in `{0.25, 0.75}`, i.e. per-axis offsets
in `{-0.375, -0.125}` (a pencil about `(-0.25, -0.25, 1)`), which under the
identity cam2world are also the unnormalized world direction offsets. -/
theorem C7_amended :
    rsShape 1 2 = (1, 4, 3) ∧
    (∀ m : ℕ, ∀ k : Fin 3, rayOrigin (fun _ => eye4) 2 0 m k = 0) ∧
    camRelPoint (fun _ => ![![2, 0, 1], ![0, 2, 1], ![0, 0, 1]]) 2 0 0
      = ![-(3/8), -(3/8), 1, 1] ∧
    camRelPoint (fun _ => ![![2, 0, 1], ![0, 2, 1], ![0, 0, 1]]) 2 0 1
      = ![-(1/8), -(3/8), 1, 1] ∧
    camRelPoint (fun _ => ![![2, 0, 1], ![0, 2, 1], ![0, 0, 1]]) 2 0 2
      = ![-(3/8), -(1/8), 1, 1] ∧
    camRelPoint (fun _ => ![![2, 0, 1], ![0, 2, 1], ![0, 0, 1]]) 2 0 3
      = ![-(1/8), -(1/8), 1, 1] ∧
    rayDirPre (fun _ => eye4) (fun _ => ![![2, 0, 1], ![0, 2, 1], ![0, 0, 1]]) 2 0 0
      = ![-(3/8), -(3/8), 1] ∧
    rayDirPre (fun _ => eye4) (fun _ => ![![2, 0, 1], ![0, 2, 1], ![0, 0, 1]]) 2 0 1
      = ![-(1/8), -(3/8), 1] ∧
    rayDirPre (fun _ => eye4) (fun _ => ![![2, 0, 1], ![0, 2, 1], ![0, 0, 1]]) 2 0 2
      = ![-(3/8), -(1/8), 1] ∧
    rayDirPre (fun _ => eye4) (fun _ => ![![2, 0, 1], ![0, 2, 1], ![0, 0, 1]]) 2 0 3
      = ![-(1/8), -(1/8), 1] := by
  refine ⟨by norm_num [rsShape], fun m k => by fin_cases k <;> rfl, ?_, ?_, ?_, ?_, ?_, ?_, ?_, ?_⟩ <;>
    · funext j
      fin_cases j <;>
        norm_num +decide [camRelPoint, rayDirPre, worldRelPoint, camLocsWorld, eye4,
          Fin.sum_univ_four, x_lift, y_lift, z_cam, x_cam, y_cam, uvRep, uvFlat, uvFlip,
          uvMesh, cx, cy, sk, fx, fy]

/-- C8 as stated is false: at the non-positive resolution 0 both forwards
succeed (no ShapeMismatch is raised anywhere in the module) and return an empty
result of shape `(N, 0, 3)`. -/
theorem C8_counterexample :
    isOkB (rsForward (fun _ => eye4) (fun _ => intrinsics_dry_run) 1 0) = true ∧
    rsShape 1 0 = (1, 0, 3) ∧
    isOkB (avForward 1 (fun _ => eye4) (fun _ => intrinsics_dry_run) 0) = true ∧
    avShape 1 0 = (1, 0, 3) :=
  ⟨rfl, by norm_num [rsShape], rfl, by norm_num [avShape]⟩

/-- C8 amended: neither forward validates its inputs; with resolution 0 both
calls succeed and return an empty result with 0 rays per camera, for every
batch. -/
theorem C8_amended (N : ℕ) (c2w : ℕ → Mat4) (intr : ℕ → Mat3) :
    isOkB (rsForward c2w intr N 0) = true ∧ rsShape N 0 = (N, 0, 3) ∧
    isOkB (avForward N c2w intr 0) = true ∧ avShape N 0 = (N, 0, 3) :=
  ⟨rfl, by norm_num [rsShape], rfl, by norm_num [avShape]⟩

/-- C9: right-multiplying a cam2world matrix by the fixed conversion matrix
negates exactly columns 1 and 2 while leaving columns 0 and 3 (the translation)
unchanged, and a bottom homogeneous row `[0,0,0,1]` stays `[0,0,0,1]`. -/
theorem C9_axis_flip (A : Mat4) :
    (∀ i : Fin 4, matMul4 A flipMat i 1 = -A i 1) ∧
    (∀ i : Fin 4, matMul4 A flipMat i 2 = -A i 2) ∧
    (∀ i : Fin 4, matMul4 A flipMat i 0 = A i 0) ∧
    (∀ i : Fin 4, matMul4 A flipMat i 3 = A i 3) ∧
    (A 3 0 = 0 ∧ A 3 1 = 0 ∧ A 3 2 = 0 ∧ A 3 3 = 1 →
      ∀ j : Fin 4, matMul4 A flipMat 3 j = A 3 j) := by
  refine ⟨matMulFlip_col1 A, matMulFlip_col2 A, matMulFlip_col0 A, matMulFlip_col3 A, ?_⟩
  rintro ⟨h0, h1, h2, h3⟩ j
  fin_cases j
  · exact matMulFlip_col0 A 3
  · show matMul4 A flipMat 3 1 = A 3 1
    rw [matMulFlip_col1 A 3, h1, neg_zero]
  · show matMul4 A flipMat 3 2 = A 3 2
    rw [matMulFlip_col2 A 3, h2, neg_zero]
  · exact matMulFlip_col3 A 3

theorem C9_axis_flip_witness :
    (camera2world_dry_run 3 0 = 0 ∧ camera2world_dry_run 3 1 = 0 ∧
     camera2world_dry_run 3 2 = 0 ∧ camera2world_dry_run 3 3 = 1) ∧
    (∀ j : Fin 4, matMul4 camera2world_dry_run flipMat 3 j = camera2world_dry_run 3 j) :=
  ⟨⟨rfl, rfl, rfl, rfl⟩,
    (C9_axis_flip camera2world_dry_run).2.2.2.2 ⟨rfl, rfl, rfl, rfl⟩⟩

/-- C10: every AvatarGen camera-space direction has z component exactly -1, so
its pre-normalization squared norm is at least 1, the norm divisor is at least
1 (hence nonzero), and the normalized direction is exactly a unit vector. -/
theorem C10_avatar_normalization_safe (N : ℕ) (intr : ℕ → Mat3) (R n a b : ℕ)
    (hfx : focal N intr R n 0 ≠ 0) (hfy : focal N intr R n 1 ≠ 0) :
    dirsPre N intr R n a b 2 = -1 ∧
    1 ≤ normSq (dirsPre N intr R n a b) ∧
    1 ≤ Real.sqrt ((normSq (dirsPre N intr R n a b) : ℝ)) ∧
    Real.sqrt ((normSq (dirsPre N intr R n a b) : ℝ)) ≠ 0 ∧
    dirsHat N intr R n a b 0 ^ 2 + dirsHat N intr R n a b 1 ^ 2
      + dirsHat N intr R n a b 2 ^ 2 = 1 := by
  have h1 := one_le_normSq_dirsPre N intr R n a b
  have h2 := one_le_sqrt_normSq _ h1
  exact ⟨rfl, h1, h2, by linarith, dirsHat_unit N intr R n a b⟩

theorem C10_avatar_normalization_safe_witness :
    (focal 1 (fun _ => intrinsics_dry_run) 2 0 0 ≠ 0 ∧
     focal 1 (fun _ => intrinsics_dry_run) 2 0 1 ≠ 0) ∧
    (dirsPre 1 (fun _ => intrinsics_dry_run) 2 0 0 1 2 = -1 ∧
     1 ≤ normSq (dirsPre 1 (fun _ => intrinsics_dry_run) 2 0 0 1) ∧
     1 ≤ Real.sqrt ((normSq (dirsPre 1 (fun _ => intrinsics_dry_run) 2 0 0 1) : ℝ)) ∧
     Real.sqrt ((normSq (dirsPre 1 (fun _ => intrinsics_dry_run) 2 0 0 1) : ℝ)) ≠ 0 ∧
     dirsHat 1 (fun _ => intrinsics_dry_run) 2 0 0 1 0 ^ 2
       + dirsHat 1 (fun _ => intrinsics_dry_run) 2 0 0 1 1 ^ 2
       + dirsHat 1 (fun _ => intrinsics_dry_run) 2 0 0 1 2 ^ 2 = 1) := by
  have hnz : ¬ allZero 1 (fun _ => intrinsics_dry_run) :=
    fun h => absurd (h 0 one_pos 0 0) (by norm_num [intrinsics_dry_run])
  have hfx : focal 1 (fun _ => intrinsics_dry_run) 2 0 0 ≠ 0 := by
    simp +decide only [focal, effIntr, if_neg hnz]
    norm_num [intrinsics_dry_run]
  have hfy : focal 1 (fun _ => intrinsics_dry_run) 2 0 1 ≠ 0 := by
    simp +decide only [focal, effIntr, if_neg hnz]
    norm_num [intrinsics_dry_run]
  exact ⟨⟨hfx, hfy⟩, C10_avatar_normalization_safe 1 (fun _ => intrinsics_dry_run) 2 0 0 1 hfx hfy⟩
